import Mathlib

/-!
Verification of the rm-qmd-hasher core against its specification.

The Go sources are shallowly embedded: maps become association lists over
String keys, wall-clock times become Nat, the external qmldiff engine
becomes a Bool outcome parameter, and filesystem observations (directory
walks, stat calls) become explicit inputs.  All definitions follow the
source files `internal/jobs/store.go`, `pkg/hashtab/service.go`,
`pkg/gcdcache/*.go` and `internal/handlers/api.go`.
-/

namespace RmQmdHasher

/-! ## Association-list maps (Go `map[string]V`) -/

/-- Lookup in an association list (Go map read `m[k]`). -/
def alookup {α : Type} : List (String × α) → String → Option α
  | [], _ => none
  | (k, v) :: rest, key => if k = key then some v else alookup rest key

/-- Map write `m[k] = v`: replace the binding if present, else add it. -/
def aset {α : Type} : List (String × α) → String → α → List (String × α)
  | [], key, v => [(key, v)]
  | (k, w) :: rest, key, v =>
      if k = key then (k, v) :: rest else (k, w) :: aset rest key v

/-- Update the value bound to a key in place (no-op on absent keys). -/
def amap {α : Type} (l : List (String × α)) (key : String) (f : α → α) :
    List (String × α) :=
  l.map (fun kv => (kv.1, if kv.1 = key then f kv.2 else kv.2))

/-- Read with a default (Go map read returns the zero value when absent). -/
def agetD {α : Type} (l : List (String × α)) (key : String) (d : α) : α :=
  (alookup l key).getD d

/-! ## Job store (`internal/jobs/store.go`)

Wall-clock instants are Nat (seconds).  A subscriber channel is the list of
buffered, not yet consumed snapshots; capacity is 10 and a non-blocking
send drops the snapshot when the buffer is full. -/

structure FileResult where
  name : String
  path : String
  status : String
  error : String
deriving DecidableEq, Repr

structure Job where
  status : String
  message : String
  data : List (String × String)
  progress : Int
  operation : String
  files : List FileResult
  outputDir : String
  fileCount : Nat
  completedAt : Option Nat
deriving DecidableEq, Repr

/-- Snapshot copy handed to subscribers (`copyJob`): every broadcastable
field is copied; OutputDir and CompletedAt are not. -/
def copyJob (j : Job) : Job :=
  { status := j.status, message := j.message, data := j.data,
    progress := j.progress, operation := j.operation, files := j.files,
    outputDir := "", fileCount := j.fileCount, completedAt := none }

/-- A subscriber channel: its queue of pending snapshots, oldest first. -/
abbrev Chan := List Job

/-- Non-blocking send on a capacity-10 channel (`select`/`default`). -/
def trySend (snap : Job) (buf : Chan) : Chan :=
  if buf.length < 10 then buf ++ [snap] else buf

structure Store where
  jobs : List (String × Job)
  watchers : List (String × List Chan)
deriving DecidableEq, Repr

/-- Shared shape of the store mutators: look up the job, apply the field
change if present, and (for broadcasting mutators) deliver a snapshot of
the updated job to every subscriber channel of that job, exactly as each
Go method does under the store lock (`broadcastLocked` re-reads the job
after the mutation). -/
def Store.mutate (s : Store) (id : String) (f : Job → Job) (bcast : Bool) : Store :=
  match alookup s.jobs id with
  | none => s
  | some j =>
      let j' := f j
      { jobs := amap s.jobs id f,
        watchers :=
          if bcast then amap s.watchers id (List.map (trySend (copyJob j')))
          else s.watchers }

/-- Field change performed by `Update`: replace status and message, replace
data when non-nil, and stamp the completion time on the first transition
into a terminal status. -/
def updateFun (status message : String) (data : Option (List (String × String)))
    (now : Nat) (j : Job) : Job :=
  let j1 : Job := { j with status := status, message := message }
  let j2 : Job := match data with
    | some d => { j1 with data := d }
    | none => j1
  if (status = "success" ∨ status = "error") ∧ j2.completedAt = none then
    { j2 with completedAt := some now }
  else j2

/-- Field change performed by `UpdateWithOperation`: as `Update`, and also
replace the operation tag. -/
def updateWithOperationFun (status message : String)
    (data : Option (List (String × String))) (operation : String) (now : Nat)
    (j : Job) : Job :=
  let j1 : Job := { j with status := status, message := message }
  let j2 : Job := match data with
    | some d => { j1 with data := d }
    | none => j1
  let j3 : Job := { j2 with operation := operation }
  if (status = "success" ∨ status = "error") ∧ j3.completedAt = none then
    { j3 with completedAt := some now }
  else j3

/-- Clamp performed at the top of `UpdateProgress`. -/
def clampProgress (p : Int) : Int :=
  if p < 0 then 0 else if p > 100 then 100 else p

def updateProgressFun (p : Int) (j : Job) : Job :=
  { j with progress := clampProgress p }

def setOutputDirFun (dir : String) (j : Job) : Job :=
  { j with outputDir := dir }

def setFilesFun (files : List FileResult) (j : Job) : Job :=
  { j with files := files, fileCount := files.length }

def addFileFun (f : FileResult) (j : Job) : Job :=
  { j with files := j.files ++ [f], fileCount := j.files.length + 1 }

def Store.update (s : Store) (id status message : String)
    (data : Option (List (String × String))) (now : Nat) : Store :=
  s.mutate id (updateFun status message data now) true

def Store.updateProgress (s : Store) (id : String) (p : Int) : Store :=
  s.mutate id (updateProgressFun p) true

def Store.updateWithOperation (s : Store) (id status message : String)
    (data : Option (List (String × String))) (operation : String) (now : Nat) :
    Store :=
  s.mutate id (updateWithOperationFun status message data operation now) true

def Store.setOutputDir (s : Store) (id dir : String) : Store :=
  s.mutate id (setOutputDirFun dir) false

def Store.setFiles (s : Store) (id : String) (files : List FileResult) : Store :=
  s.mutate id (setFilesFun files) false

def Store.addFile (s : Store) (id : String) (f : FileResult) : Store :=
  s.mutate id (addFileFun f) true

def Store.create (s : Store) (id : String) : Store :=
  { jobs := aset s.jobs id
      { status := "pending", message := "Job created", data := [],
        progress := 0, operation := "", files := [], outputDir := "",
        fileCount := 0, completedAt := none },
    watchers := aset s.watchers id [] }

/-- Register a new subscriber channel for `id` (appended last) and deliver
one immediate snapshot of the current job state when the job exists; the
sequential net effect of `Subscribe`. -/
def Store.subscribe (s : Store) (id : String) : Store :=
  let initBuf : Chan :=
    match alookup s.jobs id with
    | some j => [copyJob j]
    | none => []
  { s with watchers := aset s.watchers id (agetD s.watchers id [] ++ [initBuf]) }

/-- Condition under which the background sweep removes a job: completion
timestamp set and strictly older than the 10-minute retention window, and
no registered subscriber channel. -/
def sweeps (j : Job) (chans : List Chan) (now : Nat) : Bool :=
  (match j.completedAt with
   | some c => decide (600 < now - c)
   | none => false) && chans.isEmpty

def Store.cleanupOldJobs (s : Store) (now : Nat) : Store :=
  { jobs := s.jobs.filter (fun kv => !(sweeps kv.2 (agetD s.watchers kv.1 []) now)),
    watchers := s.watchers.filter (fun kv =>
      match alookup s.jobs kv.1 with
      | some j => !(sweeps j (agetD s.watchers kv.1 []) now)
      | none => true) }

/-- One call to a store mutator, with its wall-clock arguments explicit. -/
inductive Op where
  | update (id status message : String)
      (data : Option (List (String × String))) (now : Nat)
  | updateProgress (id : String) (p : Int)
  | updateWithOperation (id status message : String)
      (data : Option (List (String × String))) (operation : String) (now : Nat)
  | setOutputDir (id dir : String)
  | setFiles (id : String) (files : List FileResult)
  | addFile (id : String) (f : FileResult)
deriving DecidableEq, Repr

def Op.jobId : Op → String
  | .update id _ _ _ _ => id
  | .updateProgress id _ => id
  | .updateWithOperation id _ _ _ _ _ => id
  | .setOutputDir id _ => id
  | .setFiles id _ => id
  | .addFile id _ => id

/-- Whether the mutator broadcasts a snapshot (`SetOutputDir` and
`SetFiles` do not). -/
def Op.broadcasts : Op → Bool
  | .setOutputDir _ _ => false
  | .setFiles _ _ => false
  | _ => true

def opFun : Op → Job → Job
  | .update _ status message data now => updateFun status message data now
  | .updateProgress _ p => updateProgressFun p
  | .updateWithOperation _ status message data operation now =>
      updateWithOperationFun status message data operation now
  | .setOutputDir _ dir => setOutputDirFun dir
  | .setFiles _ files => setFilesFun files
  | .addFile _ f => addFileFun f

def applyOp (s : Store) (op : Op) : Store :=
  s.mutate op.jobId (opFun op) op.broadcasts

def applyOps (s : Store) : List Op → Store
  | [] => s
  | op :: rest => applyOps (applyOp s op) rest

/-! ## Source registry (`pkg/hashtab/service.go`)

Directory walks and stat calls are I/O; each `filepath.WalkDir` invocation
is an explicit input recording the files its callback processed, in order,
and whether the walk aborted with an error.  The hashtable file format and
`Load` (defined outside the service file) are abstracted by the `parsed`
field of each walked file: `none` models a `Load` failure (skip-and-log),
`some` carries the descriptor fields the registry reads. -/

structure Hashtab where
  path : String
  osVersion : String
  device : String
deriving DecidableEq, Repr

structure ParsedInfo where
  osVersion : String
  device : String
deriving DecidableEq, Repr

/-- One file met by a directory walk: its path, its base name, the result
of `d.Info()` (`none` when stat fails) and the result of `Load`. -/
structure FileEnt where
  path : String
  base : String
  mtime : Option Nat
  parsed : Option ParsedInfo
deriving DecidableEq, Repr

/-- Outcome of one `filepath.WalkDir` invocation.  When `errored` is true
the walk aborted with an I/O error and `entries` is the prefix of files
the callback had already processed. -/
structure WalkResult where
  entries : List FileEnt
  errored : Bool
deriving DecidableEq, Repr

structure HState where
  hashtables : List Hashtab
  dir : String
  modTimes : List (String × Nat)
  pathByName : List (String × String)
  byVersion : List (String × List Hashtab)
  lastReloadCheck : Nat
deriving DecidableEq, Repr

/-- Accumulator of the load walk shared by `loadHashtables` and the reload
half of `CheckAndReload`. -/
structure LoadAcc where
  hashtables : List Hashtab
  loadedNames : List (String × String)
  pathByName : List (String × String)
  byVersion : List (String × List Hashtab)
  modTimes : List (String × Nat)
deriving DecidableEq, Repr

/-- One step of the load walk: skip duplicates by base name, skip files
that fail to parse, otherwise append the hashtable to every structure and
record the mtime when `d.Info()` succeeded. -/
def loadStep (acc : LoadAcc) (e : FileEnt) : LoadAcc :=
  if (alookup acc.loadedNames e.base).isSome then acc
  else
    match e.parsed with
    | none => acc
    | some info =>
        let ht : Hashtab := ⟨e.path, info.osVersion, info.device⟩
        { hashtables := acc.hashtables ++ [ht],
          loadedNames := aset acc.loadedNames e.base e.path,
          pathByName := aset acc.pathByName e.base e.path,
          byVersion := aset acc.byVersion info.osVersion
            (agetD acc.byVersion info.osVersion [] ++ [ht]),
          modTimes :=
            match e.mtime with
            | some m => aset acc.modTimes e.path m
            | none => acc.modTimes }

def loadFrom (entries : List FileEnt) : LoadAcc :=
  entries.foldl loadStep ⟨[], [], [], [], []⟩

/-- Change detection performed by the first walk of `CheckAndReload`: an
added or mtime-changed file, or a previously recorded path no longer seen
by the walk. -/
def detectChange (modTimes : List (String × Nat)) (entries : List FileEnt) : Bool :=
  let currentFiles : List (String × Nat) :=
    entries.filterMap (fun e => e.mtime.map (fun m => (e.path, m)))
  (entries.any fun e =>
    match e.mtime with
    | some m => !(decide (alookup modTimes e.path = some m))
    | none => false) ||
  (modTimes.any fun kv => !(alookup currentFiles kv.1).isSome)

structure CRResult where
  state : HState
  reloaded : Bool
  walkError : Bool
deriving DecidableEq, Repr

/-- Model of `CheckAndReload`: rate-limited to once per 5 seconds; compares the walk
against the stored mtime map; on any change rebuilds every structure from
a second walk.  An error in either walk returns `reloaded = false` plus an
error; an error in the second walk strikes after the structures were reset
and rebuilt from the walked prefix. -/
def CheckAndReload (s : HState) (now : Nat) (w1 w2 : WalkResult) : CRResult :=
  if now - s.lastReloadCheck < 5 then ⟨s, false, false⟩
  else
    let s1 : HState := { s with lastReloadCheck := now }
    if w1.errored then ⟨s1, false, true⟩
    else if !(detectChange s.modTimes w1.entries) then ⟨s1, false, false⟩
    else
      let acc := loadFrom w2.entries
      let s2 : HState :=
        { s1 with
          hashtables := acc.hashtables
          modTimes := acc.modTimes
          pathByName := acc.pathByName
          byVersion := acc.byVersion }
      if w2.errored then ⟨s2, false, true⟩ else ⟨s2, true, false⟩

def GetHashtabsForVersion (s : HState) (version : String) : List Hashtab :=
  agetD s.byVersion version []

/-! ## Derived-artifact cache (`pkg/gcdcache`)

The external engine invocation `runQmldiff` is abstracted by the Bool
input `engineOk`; the current filesystem mtimes (`os.Stat`) by the
function `stat`. -/

structure GCDHashtab where
  version : String
  path : String
  sourceModTime : Nat
  deviceCount : Nat
deriving DecidableEq, Repr

structure GState where
  gcdDir : String
  gcdHashtabs : List (String × GCDHashtab)
  sourceModTimes : List (String × List (String × Nat))
deriving DecidableEq, Repr

structure GenResult where
  g : GState
  res : Except String Unit
  engineCalls : Nat
deriving Repr

/-- Model of `generateGCD`: zero source hashtabs is an error; exactly one is used
directly with a wall-clock snapshot; two or more invoke the engine once on
the deterministic output path and, on success, snapshot each input path
mtime that `os.Stat` can read. -/
def generateGCD (g : GState) (h : HState) (version : String) (engineOk : Bool)
    (stat : String → Option Nat) (now : Nat) : GenResult :=
  match GetHashtabsForVersion h version with
  | [] => ⟨g, .error ("no hashtabs found for version " ++ version), 0⟩
  | [ht] =>
      ⟨{ g with
          gcdHashtabs := aset g.gcdHashtabs version ⟨version, ht.path, now, 1⟩,
          sourceModTimes := aset g.sourceModTimes version [(ht.path, now)] },
        .ok (), 0⟩
  | ht1 :: ht2 :: rest =>
      let hts := ht1 :: ht2 :: rest
      let outputPath := g.gcdDir ++ "/" ++ version ++ ".gcd"
      if engineOk then
        ⟨{ g with
            gcdHashtabs := aset g.gcdHashtabs version
              ⟨version, outputPath, now, hts.length⟩,
            sourceModTimes := aset g.sourceModTimes version
              (hts.filterMap (fun ht => (stat ht.path).map (fun m => (ht.path, m)))) },
          .ok (), 1⟩
      else ⟨g, .error "qmldiff gcd-hashtab failed", 1⟩

/-- Staleness test of `GetGCDHashtab` when no reload occurred: regenerate
when the cache entry is missing, when the registry device count differs,
or when some current source path has a readable mtime different from the
recorded snapshot. -/
def staleCheck (g : GState) (h : HState) (version : String)
    (stat : String → Option Nat) : Bool :=
  match alookup g.gcdHashtabs version with
  | none => true
  | some gcd =>
      let hashtabs := GetHashtabsForVersion h version
      if hashtabs.length ≠ gcd.deviceCount then true
      else hashtabs.any fun ht =>
        match stat ht.path with
        | some m =>
            !(decide (alookup (agetD g.sourceModTimes version []) ht.path = some m))
        | none => false

structure GetResult where
  g : GState
  h : HState
  res : Except String String
  engineCalls : Nat
  regenerated : Bool
deriving Repr

/-- Model of `GetGCDHashtab`: ask the registry to check and reload (walk errors are
only logged); regenerate when a reload was reported or the staleness test
fires; finally read the cache entry and return its path. -/
def GetGCDHashtab (g : GState) (h : HState) (version : String) (now : Nat)
    (w1 w2 : WalkResult) (engineOk : Bool) (stat : String → Option Nat) :
    GetResult :=
  let cr := CheckAndReload h now w1 w2
  if cr.reloaded || staleCheck g cr.state version stat then
    let gen := generateGCD g cr.state version engineOk stat now
    match gen.res with
    | .error e => ⟨gen.g, cr.state, .error e, gen.engineCalls, true⟩
    | .ok _ =>
        match alookup gen.g.gcdHashtabs version with
        | none =>
            ⟨gen.g, cr.state,
              .error ("GCD hashtab not found for version " ++ version),
              gen.engineCalls, true⟩
        | some gcd => ⟨gen.g, cr.state, .ok gcd.path, gen.engineCalls, true⟩
  else
    match alookup g.gcdHashtabs version with
    | none =>
        ⟨g, cr.state, .error ("GCD hashtab not found for version " ++ version),
          0, false⟩
    | some gcd => ⟨g, cr.state, .ok gcd.path, 0, false⟩

/-! ## Processing task (`internal/handlers/api.go`)

The per-file work of `processHashJob` (the copy into the output directory
and the engine invocation `HashDiffs`) is I/O; its outcome for each file
is an explicit input.  The derived-hashtab acquisition is likewise passed
in as the outcome of `GetGCDHashtab`. -/

/-- What the filesystem and engine did for one uploaded file. -/
inductive FileOutcome where
  | copyFail (msg : String)
  | hashFail (msg : String)
  | ok
deriving DecidableEq, Repr

/-- The FileResult recorded for one file of the batch. -/
def mkFileResult : String × FileOutcome → FileResult
  | (rel, .copyFail e) => ⟨rel, rel, "error", "Failed to copy file: " ++ e⟩
  | (rel, .hashFail e) => ⟨rel, rel, "error", "Hashing failed: " ++ e⟩
  | (rel, .ok) => ⟨rel, rel, "success", ""⟩

/-- Number of files of the batch that hash successfully. -/
def countOk : List (String × FileOutcome) → Nat
  | [] => 0
  | f :: rest => (if f.2 = FileOutcome.ok then 1 else 0) + countOk rest

/-- The per-file loop of `processHashJob`: every file appends exactly one
result (failures continue with the next file); each success bumps the
count and reports progress.  The float64 percentage is modeled with Nat
division. -/
def hashLoop (jobID : String) (total : Nat) :
    Store → List (String × FileOutcome) → Nat → List FileResult → Nat →
    Store × List FileResult × Nat
  | store, [], _, results, successCount => (store, results, successCount)
  | store, f :: rest, i, results, successCount =>
      match f.2 with
      | .copyFail _ =>
          hashLoop jobID total store rest (i + 1)
            (results ++ [mkFileResult f]) successCount
      | .hashFail _ =>
          hashLoop jobID total store rest (i + 1)
            (results ++ [mkFileResult f]) successCount
      | .ok =>
          let progress : Int := (((i + 1) * 100) / total : Nat)
          hashLoop jobID total (store.updateProgress jobID progress) rest (i + 1)
            (results ++ [mkFileResult f]) (successCount + 1)

/-- Model of `processHashJob`: mark the job preparing, obtain the derived hashtab
(failure terminates the job with an error status), mark it hashing, run
the per-file loop, store the result list, and set the terminal status:
"error" when no file succeeded, else "success". -/
def processHashJob (s : Store) (jobID version : String)
    (files : List (String × FileOutcome)) (gcd : Except String String)
    (now : Nat) : Store :=
  let s1 := s.updateWithOperation jobID "running" "Getting GCD hashtab" none
    "preparing" now
  match gcd with
  | .error e =>
      s1.update jobID "error" ("Version " ++ version ++ " not available: " ++ e)
        none now
  | .ok _ =>
      let s2 := s1.updateWithOperation jobID "running" "Hashing files" none
        "hashing" now
      match hashLoop jobID files.length s2 files 0 [] 0 with
      | (s3, results, successCount) =>
          let s4 := s3.setFiles jobID results
          if successCount = 0 then
            s4.update jobID "error" "All files failed to hash" none now
          else
            s4.update jobID "success"
              ("Hashed " ++ toString successCount ++ " file(s)") none now

/-! ## Specification-side definitions -/

/-- Snapshot sequence the specification promises a subscriber: one
snapshot of the mutated job per broadcasting mutation, in mutation order.
This is the spec side of claim C6; the implementation side is the
subscriber channel content produced by `applyOps`. -/
def expectedDeliveries : Store → List Op → List Job
  | _, [] => []
  | s, op :: rest =>
      let s' := applyOp s op
      let here : List Job :=
        if op.broadcasts then
          match alookup s'.jobs op.jobId with
          | some j' => [copyJob j']
          | none => []
        else []
      here ++ expectedDeliveries s' rest

/-! ## Concrete instances used by witnesses and counterexamples -/

/-- A fresh job as `Create` builds it. -/
def jobA : Job :=
  { status := "pending", message := "Job created", data := [], progress := 0,
    operation := "", files := [], outputDir := "", fileCount := 0,
    completedAt := none }

/-- A job that completed (status success) at time 100. -/
def jobDone : Job :=
  { status := "success", message := "done", data := [], progress := 100,
    operation := "", files := [], outputDir := "", fileCount := 0,
    completedAt := some 100 }

/-- A store holding one fresh job "a" with no subscribers. -/
def storeA : Store := { jobs := [("a", jobA)], watchers := [("a", [])] }

/-- A store holding the completed job "d" with no subscribers and the
completed job "e" with one subscriber. -/
def storeDone : Store :=
  { jobs := [("d", jobDone), ("e", jobDone)],
    watchers := [("d", []), ("e", [[]])] }

/-- Two registry hashtabs of version "1.0" (devices rm1 and rm2). -/
def ht1 : Hashtab := ⟨"p1", "1.0", "rm1"⟩

def ht2 : Hashtab := ⟨"p2", "1.0", "rm2"⟩

/-- A registry that loaded ht1 and ht2 at mtime 0, last checked at 100. -/
def hReg : HState :=
  { hashtables := [ht1, ht2], dir := "hashtables",
    modTimes := [("p1", 0), ("p2", 0)],
    pathByName := [("p1", "p1"), ("p2", "p2")],
    byVersion := [("1.0", [ht1, ht2])], lastReloadCheck := 100 }

/-- An empty derived-artifact cache. -/
def gEmpty : GState := { gcdDir := "g", gcdHashtabs := [], sourceModTimes := [] }

/-- Filesystem mtimes after "p1" was touched at time 5. -/
def statTouched : String → Option Nat := fun p =>
  if p = "p1" then some 5 else if p = "p2" then some 0 else none

/-- Walk observation of that filesystem: "p1" has mtime 5 (changed from
the recorded 0), "p2" still has mtime 0; both parse. -/
def wsTouched : List FileEnt :=
  [⟨"p1", "p1", some 5, some ⟨"1.0", "rm1"⟩⟩,
   ⟨"p2", "p2", some 0, some ⟨"1.0", "rm2"⟩⟩]

/-- Filesystem mtimes agreeing with what `hReg` recorded. -/
def statClean : String → Option Nat := fun p =>
  if p = "p1" then some 0 else if p = "p2" then some 0 else none

/-- Walk observation agreeing with what `hReg` recorded. -/
def wsClean : List FileEnt :=
  [⟨"p1", "p1", some 0, some ⟨"1.0", "rm1"⟩⟩,
   ⟨"p2", "p2", some 0, some ⟨"1.0", "rm2"⟩⟩]

/-- Whether a mutator call is an Update or UpdateWithOperation on this job
id carrying a terminal status. -/
def Op.terminalFor (op : Op) (id : String) : Bool :=
  match op with
  | .update i st _ _ _ => decide (i = id) && (decide (st = "success") || decide (st = "error"))
  | .updateWithOperation i st _ _ _ _ => decide (i = id) && (decide (st = "success") || decide (st = "error"))
  | _ => false

/-- Number of files of the batch hashed successfully, zero when the
derived hashtab could not be obtained at all. -/
def hashedOk (files : List (String × FileOutcome)) (gcd : Except String String) : Nat :=
  match gcd with
  | .error _ => 0
  | .ok _ => countOk files

/-! ## Helper lemmas -/

theorem alookup_aset_self {α : Type} (l : List (String × α)) (k : String) (v : α) :
    alookup (aset l k v) k = some v := by
  induction l with
  | nil => simp [aset, alookup]
  | cons kv rest ih =>
      obtain ⟨k0, v0⟩ := kv
      by_cases h : k0 = k
      · simp [aset, alookup, h]
      · simp [aset, alookup, h, ih]

theorem alookup_aset_ne {α : Type} (l : List (String × α)) (k k' : String) (v : α)
    (h : k' ≠ k) : alookup (aset l k v) k' = alookup l k' := by
  induction l with
  | nil => simp [aset, alookup, Ne.symm h]
  | cons kv rest ih =>
      obtain ⟨k0, v0⟩ := kv
      by_cases hk : k0 = k
      · subst hk
        simp [aset, alookup, Ne.symm h]
      · by_cases hk' : k0 = k'
        · subst hk'
          simp [aset, alookup, hk, h]
        · simp [aset, alookup, hk, hk', ih]

theorem alookup_amap_self {α : Type} (l : List (String × α)) (k : String) (f : α → α) :
    alookup (amap l k f) k = (alookup l k).map f := by
  induction l with
  | nil => simp [amap, alookup]
  | cons kv rest ih =>
      obtain ⟨k0, v0⟩ := kv
      by_cases h : k0 = k
      · subst h
        simp [amap, alookup]
      · simpa [amap, alookup, h] using ih

theorem alookup_amap_ne {α : Type} (l : List (String × α)) (k k' : String) (f : α → α)
    (h : k' ≠ k) : alookup (amap l k f) k' = alookup l k' := by
  induction l with
  | nil => simp [amap, alookup]
  | cons kv rest ih =>
      obtain ⟨k0, v0⟩ := kv
      by_cases hk : k0 = k
      · subst hk
        simpa [amap, alookup, Ne.symm h] using ih
      · by_cases hk' : k0 = k'
        · subst hk'
          simp [amap, alookup, hk]
        · simpa [amap, alookup, hk, hk'] using ih

theorem alookup_eq_none_of_not_mem {α : Type} (l : List (String × α)) (k : String)
    (h : k ∉ l.map Prod.fst) : alookup l k = none := by
  induction l with
  | nil => rfl
  | cons kv rest ih =>
      obtain ⟨k0, v0⟩ := kv
      simp only [List.map_cons, List.mem_cons] at h
      push_neg at h
      simp [alookup, Ne.symm h.1, ih h.2]

theorem mutate_of_absent (s : Store) (id : String) (f : Job → Job) (b : Bool)
    (h : alookup s.jobs id = none) : s.mutate id f b = s := by
  simp [Store.mutate, h]

theorem mutate_lookup_self (s : Store) (id : String) (f : Job → Job) (b : Bool)
    (j : Job) (h : alookup s.jobs id = some j) :
    alookup (s.mutate id f b).jobs id = some (f j) := by
  simp [Store.mutate, h, alookup_amap_self]

theorem mutate_watchers_bcast (s : Store) (id : String) (f : Job → Job)
    (j : Job) (h : alookup s.jobs id = some j) :
    agetD (s.mutate id f true).watchers id [] =
      (agetD s.watchers id []).map (trySend (copyJob (f j))) := by
  simp only [Store.mutate, h, agetD, if_true]
  rw [alookup_amap_self]
  cases alookup s.watchers id <;> simp

theorem mutate_watchers_nobcast (s : Store) (id : String) (f : Job → Job) :
    (s.mutate id f false).watchers = s.watchers := by
  unfold Store.mutate
  cases alookup s.jobs id <;> simp

theorem mutate_jobs_lookup (s : Store) (idm : String) (f : Job → Job) (b : Bool)
    (id : String) :
    alookup (s.mutate idm f b).jobs id =
      if idm = id then (alookup s.jobs id).map f else alookup s.jobs id := by
  unfold Store.mutate
  rcases hm : alookup s.jobs idm with _ | j
  · by_cases h : idm = id
    · subst h
      simp [hm]
    · simp [h]
  · by_cases h : idm = id
    · subst h
      simp [alookup_amap_self]
    · simp [h, alookup_amap_ne _ _ _ _ (Ne.symm h)]

theorem alookup_filter {α : Type} (p : String × α → Bool) (l : List (String × α))
    (hnd : (l.map Prod.fst).Nodup) (k : String) :
    alookup (l.filter p) k =
      match alookup l k with
      | some v => if p (k, v) then some v else none
      | none => none := by
  induction l with
  | nil => rfl
  | cons kv rest ih =>
      obtain ⟨k0, v0⟩ := kv
      simp only [List.map_cons, List.nodup_cons] at hnd
      by_cases hk : k0 = k
      · subst hk
        by_cases hp : p (k0, v0)
        · simp [List.filter, hp, alookup]
        · have hnone : alookup (rest.filter p) k0 = none := by
            refine alookup_eq_none_of_not_mem _ _ (fun hmem => hnd.1 ?_)
            have hsub : (rest.filter p).map Prod.fst ⊆ rest.map Prod.fst :=
              (List.filter_sublist rest).map Prod.fst |>.subset
            exact hsub hmem
          simp [List.filter, hp, alookup, hnone]
      · by_cases hp : p (k0, v0)
        · simp [List.filter, hp, alookup, hk, ih hnd.2]
        · simp [List.filter, hp, alookup, hk, ih hnd.2]

theorem sweeps_eq_true_iff (j : Job) (chans : List Chan) (now : Nat) :
    sweeps j chans now = true ↔
      ∃ c, j.completedAt = some c ∧ 600 < now - c ∧ chans = [] := by
  unfold sweeps
  rcases j.completedAt with _ | c <;>
    simp [List.isEmpty_iff]

/-! ## Claim theorems -/

/-- C1: for a version with N registered source hashtabs, generateGCD
succeeds iff N is at least 1 when the engine succeeds; N = 0 returns a
not-found error without touching anything; N = 1 installs the sole source
path as the derived artifact with no engine call; N at least 2 invokes
the engine exactly once per successful generation, with the output path
derived from the version string. -/
theorem c1_generateGCD (g : GState) (h : HState) (version : String)
    (engineOk : Bool) (stat : String → Option Nat) (now : Nat) :
    (engineOk = true →
      ((generateGCD g h version engineOk stat now).res = Except.ok () ↔
        1 ≤ (GetHashtabsForVersion h version).length)) ∧
    (GetHashtabsForVersion h version = [] →
      (generateGCD g h version engineOk stat now).res =
        Except.error ("no hashtabs found for version " ++ version) ∧
      (generateGCD g h version engineOk stat now).engineCalls = 0 ∧
      (generateGCD g h version engineOk stat now).g = g) ∧
    (∀ ht, GetHashtabsForVersion h version = [ht] →
      (generateGCD g h version engineOk stat now).res = Except.ok () ∧
      (generateGCD g h version engineOk stat now).engineCalls = 0 ∧
      alookup (generateGCD g h version engineOk stat now).g.gcdHashtabs version =
        some ⟨version, ht.path, now, 1⟩) ∧
    (2 ≤ (GetHashtabsForVersion h version).length →
      (generateGCD g h version engineOk stat now).res = Except.ok () →
      (generateGCD g h version engineOk stat now).engineCalls = 1 ∧
      alookup (generateGCD g h version engineOk stat now).g.gcdHashtabs version =
        some ⟨version, g.gcdDir ++ "/" ++ version ++ ".gcd", now,
          (GetHashtabsForVersion h version).length⟩) := by
  rcases hl : GetHashtabsForVersion h version with _ | ⟨a, _ | ⟨b, rest⟩⟩
  · refine ⟨?_, ?_, ?_, ?_⟩
    · intro _
      simp [generateGCD, hl]
    · intro _
      simp [generateGCD, hl]
    · intro ht hht
      exact absurd hht (by simp)
    · intro h2
      exact absurd h2 (by simp)
  · refine ⟨?_, ?_, ?_, ?_⟩
    · intro _
      simp [generateGCD, hl]
    · intro hnil
      exact absurd hnil (by simp)
    · intro ht hht
      injection hht with h1 _
      subst h1
      simp [generateGCD, hl, alookup_aset_self]
    · intro h2
      exact absurd h2 (by simp)
  · refine ⟨?_, ?_, ?_, ?_⟩
    · intro hok
      subst hok
      simp [generateGCD, hl]
    · intro hnil
      exact absurd hnil (by simp)
    · intro ht hht
      exact absurd hht (by simp)
    · intro _ hres
      cases engineOk
      · exact absurd hres (by simp [generateGCD, hl])
      · constructor
        · simp [generateGCD, hl]
        · simp [generateGCD, hl, alookup_aset_self]

/-- Witness for C1: the two-device registry hReg generates with exactly
one engine call. -/
theorem c1_generateGCD_witness :
    2 ≤ (GetHashtabsForVersion hReg "1.0").length ∧
    (generateGCD gEmpty hReg "1.0" true statClean 7).res = Except.ok () ∧
    (generateGCD gEmpty hReg "1.0" true statClean 7).engineCalls = 1 := by
  have h := c1_generateGCD gEmpty hReg "1.0" true statClean 7
  have hlen : 2 ≤ (GetHashtabsForVersion hReg "1.0").length := by decide
  have hok := (h.1 rfl).mpr (le_trans (by decide) hlen)
  exact ⟨hlen, hok, (h.2.2.2 hlen hok).1⟩

/-- C4: when the engine fails during generation of a version with at
least two source hashtabs, generateGCD propagates the error and installs
no cache entry: the cache state (both maps) is exactly what it was, so
the next request retries derivation from scratch. -/
theorem c4_engine_failure_no_cache (g : GState) (h : HState) (version : String)
    (stat : String → Option Nat) (now : Nat)
    (h2 : 2 ≤ (GetHashtabsForVersion h version).length) :
    (generateGCD g h version false stat now).res =
      Except.error "qmldiff gcd-hashtab failed" ∧
    (generateGCD g h version false stat now).g = g := by
  rcases hl : GetHashtabsForVersion h version with _ | ⟨a, _ | ⟨b, rest⟩⟩
  · rw [hl] at h2
    simp at h2
  · rw [hl] at h2
    simp at h2
  · constructor <;> simp [generateGCD, hl]

/-- Witness for C4 at the concrete two-device registry. -/
theorem c4_engine_failure_no_cache_witness :
    2 ≤ (GetHashtabsForVersion hReg "1.0").length ∧
    (generateGCD gEmpty hReg "1.0" false statClean 7).g = gEmpty := by
  have hlen : 2 ≤ (GetHashtabsForVersion hReg "1.0").length := by decide
  exact ⟨hlen, (c4_engine_failure_no_cache gEmpty hReg "1.0" statClean 7 hlen).2⟩

/-- C7: the background sweep removes a job iff its completion timestamp
is set, strictly older than the 10-minute retention window, and the job
currently has zero subscribers; a job with a registered subscriber is
never removed by the sweep regardless of its age. -/
theorem c7_sweep (s : Store) (now : Nat)
    (hnd : (s.jobs.map Prod.fst).Nodup) (id : String) :
    (alookup (s.cleanupOldJobs now).jobs id = none ↔
      (alookup s.jobs id = none ∨
        ∃ j c, alookup s.jobs id = some j ∧ j.completedAt = some c ∧
          600 < now - c ∧ agetD s.watchers id [] = [])) ∧
    (∀ j, alookup s.jobs id = some j → agetD s.watchers id [] ≠ [] →
      alookup (s.cleanupOldJobs now).jobs id = some j) := by
  have hjobs : (s.cleanupOldJobs now).jobs =
      s.jobs.filter (fun kv => !(sweeps kv.2 (agetD s.watchers kv.1 []) now)) := rfl
  have hsome : ∀ j, alookup s.jobs id = some j →
      alookup (s.cleanupOldJobs now).jobs id =
        if sweeps j (agetD s.watchers id []) now then none else some j := by
    intro j hj
    have hf := alookup_filter
      (fun kv => !(sweeps kv.2 (agetD s.watchers kv.1 []) now)) s.jobs hnd id
    rw [hj] at hf
    rw [hjobs, hf]
    rcases hsw : sweeps j (agetD s.watchers id []) now
    · simp [hsw]
    · simp [hsw]
  have hnone : alookup s.jobs id = none →
      alookup (s.cleanupOldJobs now).jobs id = none := by
    intro hj
    have hf := alookup_filter
      (fun kv => !(sweeps kv.2 (agetD s.watchers kv.1 []) now)) s.jobs hnd id
    rw [hj] at hf
    rw [hjobs, hf]
  constructor
  · rcases hj : alookup s.jobs id with _ | j
    · simp [hnone hj]
    · rw [hsome j hj]
      rcases hsw : sweeps j (agetD s.watchers id []) now
      · rw [if_neg (by simp)]
        constructor
        · intro hco
          exact absurd hco (by simp)
        · rintro (hn | ⟨j2, c, hj2, hc, hlt, hch⟩)
          · exact absurd hn (by simp)
          · injection hj2 with he
            subst he
            have hT : sweeps j (agetD s.watchers id []) now = true :=
              (sweeps_eq_true_iff _ _ _).mpr ⟨c, hc, hlt, hch⟩
            rw [hT] at hsw
            cases hsw
      · rw [if_pos rfl]
        constructor
        · intro _
          obtain ⟨c, hc, hlt, hch⟩ := (sweeps_eq_true_iff _ _ _).mp hsw
          exact Or.inr ⟨j, c, rfl, hc, hlt, hch⟩
        · intro _
          rfl
  · intro j hj hw
    rw [hsome j hj]
    have hsw : sweeps j (agetD s.watchers id []) now = false := by
      rcases hx : sweeps j (agetD s.watchers id []) now
      · rfl
      · obtain ⟨c, _, _, hch⟩ := (sweeps_eq_true_iff _ _ _).mp hx
        exact absurd hch hw
    rw [hsw, if_neg (by simp)]

/-- Witness for C7: job d (completed at 100, no subscribers) is removed
at time 1000; job e (same age, one subscriber) is retained. -/
theorem c7_sweep_witness :
    alookup (storeDone.cleanupOldJobs 1000).jobs "d" = none ∧
    alookup (storeDone.cleanupOldJobs 1000).jobs "e" = some jobDone := by
  have h1 := c7_sweep storeDone 1000 (by decide) "d"
  have h2 := c7_sweep storeDone 1000 (by decide) "e"
  constructor
  · exact h1.1.mpr (Or.inr ⟨jobDone, 100, by decide, by decide, by decide, by decide⟩)
  · exact h2.2 jobDone (by decide) (by decide)

/-- Counterexample to C8 as stated: an I/O error in the reload walk of
CheckAndReload reports no reload, yet leaves the registry's in-memory
structures rebuilt from the partial walk (here: cleared), not unchanged. -/
theorem c8_counterexample :
    (CheckAndReload hReg 110 ⟨wsTouched, false⟩ ⟨[], true⟩).walkError = true ∧
    (CheckAndReload hReg 110 ⟨wsTouched, false⟩ ⟨[], true⟩).reloaded = false ∧
    (CheckAndReload hReg 110 ⟨wsTouched, false⟩ ⟨[], true⟩).state.modTimes ≠
      hReg.modTimes := by
  refine ⟨by decide, by decide, by decide⟩

/-- C8 amended: an I/O error in the comparison walk of CheckAndReload is
treated as no change for that cycle: the call reports that no reload
occurred and the hashtable list, filename-to-path map, version grouping
and mtime map are all left unchanged.  An error in the reload walk also
reports no reload, but leaves those structures rebuilt from the walked
prefix (possibly cleared) rather than unchanged. -/
theorem c8_amended (s : HState) (now : Nat) (w1 w2 : WalkResult) :
    (w1.errored = true →
      (CheckAndReload s now w1 w2).reloaded = false ∧
      (CheckAndReload s now w1 w2).state.hashtables = s.hashtables ∧
      (CheckAndReload s now w1 w2).state.pathByName = s.pathByName ∧
      (CheckAndReload s now w1 w2).state.byVersion = s.byVersion ∧
      (CheckAndReload s now w1 w2).state.modTimes = s.modTimes) ∧
    (w2.errored = true → (CheckAndReload s now w1 w2).reloaded = false) ∧
    (¬ now - s.lastReloadCheck < 5 → w1.errored = false →
      detectChange s.modTimes w1.entries = true → w2.errored = true →
      (CheckAndReload s now w1 w2).walkError = true ∧
      (CheckAndReload s now w1 w2).state.hashtables = (loadFrom w2.entries).hashtables ∧
      (CheckAndReload s now w1 w2).state.pathByName = (loadFrom w2.entries).pathByName ∧
      (CheckAndReload s now w1 w2).state.byVersion = (loadFrom w2.entries).byVersion ∧
      (CheckAndReload s now w1 w2).state.modTimes = (loadFrom w2.entries).modTimes) := by
  refine ⟨?_, ?_, ?_⟩
  · intro he
    unfold CheckAndReload
    by_cases hrate : now - s.lastReloadCheck < 5
    · simp [hrate]
    · simp [hrate, he]
  · intro he2
    unfold CheckAndReload
    by_cases hrate : now - s.lastReloadCheck < 5
    · simp [hrate]
    · rcases he1 : w1.errored
      · by_cases hch : detectChange s.modTimes w1.entries
        · simp [hrate, he1, hch, he2]
        · simp [hrate, he1, hch]
      · simp [hrate, he1]
  · intro hrate he1 hch he2
    unfold CheckAndReload
    simp [hrate, he1, hch, he2]

/-- Witness for the amended C8: a comparison-walk error at the concrete
registry leaves every structure unchanged and reports no reload. -/
theorem c8_amended_witness :
    (CheckAndReload hReg 110 ⟨wsTouched, true⟩ ⟨[], false⟩).reloaded = false ∧
    (CheckAndReload hReg 110 ⟨wsTouched, true⟩ ⟨[], false⟩).state.modTimes =
      hReg.modTimes := by
  have h := (c8_amended hReg 110 ⟨wsTouched, true⟩ ⟨[], false⟩).1 rfl
  exact ⟨h.1, h.2.2.2.2⟩

/-- C10: every job-store mutator (Update, UpdateProgress,
UpdateWithOperation, SetOutputDir, SetFiles, AddFile) called with a job
id not present in the store is a no-op: the store, job table and all
subscriber channels included, is returned unchanged, so nothing is
broadcast to any subscriber. -/
theorem c10_mutator_absent_noop (s : Store) (op : Op)
    (h : alookup s.jobs op.jobId = none) : applyOp s op = s :=
  mutate_of_absent s op.jobId (opFun op) op.broadcasts h

/-- Witness for C10: an Update aimed at the unknown id b leaves the
concrete store untouched. -/
theorem c10_mutator_absent_noop_witness :
    applyOp storeA (Op.update "b" "running" "msg" none 3) = storeA :=
  c10_mutator_absent_noop storeA (Op.update "b" "running" "msg" none 3) (by decide)

theorem applyOp_jobs_lookup (s : Store) (op : Op) (id : String) :
    alookup (applyOp s op).jobs id =
      if op.jobId = id then (alookup s.jobs id).map (opFun op)
      else alookup s.jobs id :=
  mutate_jobs_lookup s op.jobId (opFun op) op.broadcasts id

theorem updateFun_completedAt_some (status message : String)
    (data : Option (List (String × String))) (now t : Nat) (j : Job)
    (h : j.completedAt = some t) :
    (updateFun status message data now j).completedAt = some t := by
  rcases data with _ | d <;> simp [updateFun, h]

theorem updateWithOperationFun_completedAt_some (status message : String)
    (data : Option (List (String × String))) (operation : String) (now t : Nat)
    (j : Job) (h : j.completedAt = some t) :
    (updateWithOperationFun status message data operation now j).completedAt = some t := by
  rcases data with _ | d <;> simp [updateWithOperationFun, h]

theorem opFun_completedAt_some (op : Op) (j : Job) (t : Nat)
    (h : j.completedAt = some t) : (opFun op j).completedAt = some t := by
  cases op with
  | update i status message data now =>
      exact updateFun_completedAt_some status message data now t j h
  | updateProgress i p => simp [opFun, updateProgressFun, h]
  | updateWithOperation i status message data operation now =>
      exact updateWithOperationFun_completedAt_some status message data operation now t j h
  | setOutputDir i dir => simp [opFun, setOutputDirFun, h]
  | setFiles i files => simp [opFun, setFilesFun, h]
  | addFile i f => simp [opFun, addFileFun, h]

theorem updateFun_stamps (status message : String)
    (data : Option (List (String × String))) (now : Nat) (j : Job)
    (hterm : status = "success" ∨ status = "error") (h : j.completedAt = none) :
    (updateFun status message data now j).completedAt = some now := by
  rcases hterm with h1 | h1 <;> subst h1 <;> rcases data with _ | d <;>
    simp [updateFun, h]

theorem updateWithOperationFun_stamps (status message : String)
    (data : Option (List (String × String))) (operation : String) (now : Nat)
    (j : Job) (hterm : status = "success" ∨ status = "error")
    (h : j.completedAt = none) :
    (updateWithOperationFun status message data operation now j).completedAt = some now := by
  rcases hterm with h1 | h1 <;> subst h1 <;> rcases data with _ | d <;>
    simp [updateWithOperationFun, h]

theorem opFun_completedAt_none (op : Op) (id : String) (j : Job)
    (hjid : op.jobId = id) (h : j.completedAt = none)
    (hnt : op.terminalFor id = false) : (opFun op j).completedAt = none := by
  cases op with
  | update i status message data now =>
      simp only [Op.jobId] at hjid
      subst hjid
      simp only [Op.terminalFor] at hnt
      simp at hnt
      rcases data with _ | d <;> simp [opFun, updateFun, h, hnt.1, hnt.2]
  | updateProgress i p => simp [opFun, updateProgressFun, h]
  | updateWithOperation i status message data operation now =>
      simp only [Op.jobId] at hjid
      subst hjid
      simp only [Op.terminalFor] at hnt
      simp at hnt
      rcases data with _ | d <;> simp [opFun, updateWithOperationFun, h, hnt.1, hnt.2]
  | setOutputDir i dir => simp [opFun, setOutputDirFun, h]
  | setFiles i files => simp [opFun, setFilesFun, h]
  | addFile i f => simp [opFun, addFileFun, h]

/-- C9: a job completion timestamp is stamped exactly once.  Once set,
any sequence of later mutator calls (terminal updates included) leaves
it unchanged; starting unset, the first Update or UpdateWithOperation
with a terminal status stamps it with that call's wall-clock instant,
and a mutator that is not a terminal update of this job never sets it. -/
theorem c9_completedAt_once (s : Store) (id : String) :
    (∀ (ops : List Op) (j : Job) (t : Nat),
        alookup s.jobs id = some j → j.completedAt = some t →
        ∃ j', alookup (applyOps s ops).jobs id = some j' ∧
          j'.completedAt = some t) ∧
    (∀ status message data now j, alookup s.jobs id = some j →
        j.completedAt = none → (status = "success" ∨ status = "error") →
        ∃ j', alookup (s.update id status message data now).jobs id = some j' ∧
          j'.completedAt = some now) ∧
    (∀ status message data operation now j, alookup s.jobs id = some j →
        j.completedAt = none → (status = "success" ∨ status = "error") →
        ∃ j', alookup
            (s.updateWithOperation id status message data operation now).jobs id
          = some j' ∧ j'.completedAt = some now) ∧
    (∀ (op : Op) (j : Job), alookup s.jobs id = some j →
        j.completedAt = none → op.terminalFor id = false →
        ∃ j', alookup (applyOp s op).jobs id = some j' ∧
          j'.completedAt = none) := by
  refine ⟨?_, ?_, ?_, ?_⟩
  · intro ops
    induction ops generalizing s with
    | nil =>
        intro j t hj ht
        exact ⟨j, hj, ht⟩
    | cons op rest ih =>
        intro j t hj ht
        have hlk := applyOp_jobs_lookup s op id
        by_cases hop : op.jobId = id
        · rw [if_pos hop, hj] at hlk
          exact ih (applyOp s op) (opFun op j) t hlk (opFun_completedAt_some op j t ht)
        · rw [if_neg hop] at hlk
          exact ih (applyOp s op) j t (hlk.trans hj) ht
  · intro status message data now j hj hnone hterm
    have hlk := mutate_jobs_lookup s id (updateFun status message data now) true id
    rw [if_pos rfl, hj] at hlk
    exact ⟨_, hlk, updateFun_stamps status message data now j hterm hnone⟩
  · intro status message data operation now j hj hnone hterm
    have hlk := mutate_jobs_lookup s id
      (updateWithOperationFun status message data operation now) true id
    rw [if_pos rfl, hj] at hlk
    exact ⟨_, hlk,
      updateWithOperationFun_stamps status message data operation now j hterm hnone⟩
  · intro op j hj hnone hnt
    have hlk := applyOp_jobs_lookup s op id
    by_cases hop : op.jobId = id
    · rw [if_pos hop, hj] at hlk
      exact ⟨_, hlk, opFun_completedAt_none op id j hop hnone hnt⟩
    · rw [if_neg hop] at hlk
      exact ⟨j, hlk.trans hj, hnone⟩

/-- Witness for C9: the first terminal Update stamps the fresh job at the
call instant 42. -/
theorem c9_completedAt_once_witness :
    ∃ j', alookup (storeA.update "a" "success" "m" none 42).jobs "a" = some j' ∧
      j'.completedAt = some 42 :=
  (c9_completedAt_once storeA "a").2.1 "success" "m" none 42 jobA
    (by decide) (by decide) (Or.inl rfl)

theorem copy_msg_ne_empty (e : String) : "Failed to copy file: " ++ e ≠ "" := by
  intro hcontra
  have hlen := congrArg String.length hcontra
  rw [String.length_append] at hlen
  simp at hlen
  exact absurd hlen.1 (by decide)

theorem hash_msg_ne_empty (e : String) : "Hashing failed: " ++ e ≠ "" := by
  intro hcontra
  have hlen := congrArg String.length hcontra
  rw [String.length_append] at hlen
  simp at hlen
  exact absurd hlen.1 (by decide)

theorem updateFun_status (status message : String)
    (data : Option (List (String × String))) (now : Nat) (j : Job) :
    (updateFun status message data now j).status = status := by
  rcases data with _ | d <;> simp only [updateFun] <;> split <;> rfl

theorem updateFun_files (status message : String)
    (data : Option (List (String × String))) (now : Nat) (j : Job) :
    (updateFun status message data now j).files = j.files := by
  rcases data with _ | d <;> simp only [updateFun] <;> split <;> rfl

theorem updateFun_fileCount (status message : String)
    (data : Option (List (String × String))) (now : Nat) (j : Job) :
    (updateFun status message data now j).fileCount = j.fileCount := by
  rcases data with _ | d <;> simp only [updateFun] <;> split <;> rfl

theorem update_lookup (s : Store) (id status message : String)
    (data : Option (List (String × String))) (now : Nat) (j : Job)
    (hj : alookup s.jobs id = some j) :
    alookup (s.update id status message data now).jobs id =
      some (updateFun status message data now j) := by
  have h := mutate_jobs_lookup s id (updateFun status message data now) true id
  rw [if_pos rfl, hj] at h
  exact h

theorem updateWithOperation_lookup (s : Store) (id status message : String)
    (data : Option (List (String × String))) (operation : String) (now : Nat)
    (j : Job) (hj : alookup s.jobs id = some j) :
    alookup (s.updateWithOperation id status message data operation now).jobs id =
      some (updateWithOperationFun status message data operation now j) := by
  have h := mutate_jobs_lookup s id
    (updateWithOperationFun status message data operation now) true id
  rw [if_pos rfl, hj] at h
  exact h

theorem setFiles_lookup (s : Store) (id : String) (files : List FileResult)
    (j : Job) (hj : alookup s.jobs id = some j) :
    alookup (s.setFiles id files).jobs id = some (setFilesFun files j) := by
  have h := mutate_jobs_lookup s id (setFilesFun files) false id
  rw [if_pos rfl, hj] at h
  exact h

theorem updateProgress_lookup (s : Store) (id : String) (p : Int) (j : Job)
    (hj : alookup s.jobs id = some j) :
    alookup (s.updateProgress id p).jobs id = some (updateProgressFun p j) := by
  have h := mutate_jobs_lookup s id (updateProgressFun p) true id
  rw [if_pos rfl, hj] at h
  exact h

theorem hashLoop_results (jobID : String) (total : Nat) :
    ∀ (files : List (String × FileOutcome)) (store : Store) (i : Nat)
      (results : List FileResult) (sc : Nat),
      (hashLoop jobID total store files i results sc).2.1 =
        results ++ files.map mkFileResult ∧
      (hashLoop jobID total store files i results sc).2.2 = sc + countOk files := by
  intro files
  induction files with
  | nil =>
      intro store i results sc
      simp [hashLoop, countOk]
  | cons f rest ih =>
      intro store i results sc
      rcases f with ⟨rel, out⟩
      cases out with
      | copyFail e =>
          have h := ih store (i + 1)
            (results ++ [mkFileResult (rel, FileOutcome.copyFail e)]) sc
          simp only [hashLoop]
          refine ⟨?_, ?_⟩
          · rw [h.1]
            simp
          · rw [h.2]
            simp [countOk]
      | hashFail e =>
          have h := ih store (i + 1)
            (results ++ [mkFileResult (rel, FileOutcome.hashFail e)]) sc
          simp only [hashLoop]
          refine ⟨?_, ?_⟩
          · rw [h.1]
            simp
          · rw [h.2]
            simp [countOk]
      | ok =>
          have h := ih
            (store.updateProgress jobID ((((i + 1) * 100) / total : Nat) : Int))
            (i + 1) (results ++ [mkFileResult (rel, FileOutcome.ok)]) (sc + 1)
          simp only [hashLoop]
          refine ⟨?_, ?_⟩
          · rw [h.1]
            simp
          · rw [h.2]
            simp [countOk]
            omega

theorem hashLoop_store_lookup (jobID : String) (total : Nat) :
    ∀ (files : List (String × FileOutcome)) (store : Store) (i : Nat)
      (results : List FileResult) (sc : Nat) (j : Job),
      alookup store.jobs jobID = some j →
      ∃ j', alookup (hashLoop jobID total store files i results sc).1.jobs jobID
          = some j' ∧
        j'.status = j.status ∧ j'.files = j.files ∧ j'.fileCount = j.fileCount := by
  intro files
  induction files with
  | nil =>
      intro store i results sc j hj
      exact ⟨j, by simpa [hashLoop] using hj, rfl, rfl, rfl⟩
  | cons f rest ih =>
      intro store i results sc j hj
      rcases f with ⟨rel, out⟩
      cases out with
      | copyFail e =>
          simp only [hashLoop]
          exact ih store (i + 1)
            (results ++ [mkFileResult (rel, FileOutcome.copyFail e)]) sc j hj
      | hashFail e =>
          simp only [hashLoop]
          exact ih store (i + 1)
            (results ++ [mkFileResult (rel, FileOutcome.hashFail e)]) sc j hj
      | ok =>
          simp only [hashLoop]
          obtain ⟨j', h1, h2, h3, h4⟩ := ih
            (store.updateProgress jobID ((((i + 1) * 100) / total : Nat) : Int))
            (i + 1) (results ++ [mkFileResult (rel, FileOutcome.ok)]) (sc + 1)
            (updateProgressFun ((((i + 1) * 100) / total : Nat) : Int) j)
            (updateProgress_lookup store jobID _ j hj)
          exact ⟨j', h1, h2, h3, h4⟩

/-- C5: the processing task sets the job terminal status to error iff
zero files of the batch hashed successfully; otherwise the status is
success and the job carries the full mixed per-file result list, one
result per input file (so a per-file failure never aborts the remaining
files), failed files carrying status error with a non-empty message and
hashed files carrying status success. -/
theorem c5_processHashJob (s : Store) (jobID version : String)
    (files : List (String × FileOutcome)) (gcd : Except String String)
    (now : Nat) (j : Job) (hj : alookup s.jobs jobID = some j) :
    ∃ j', alookup (processHashJob s jobID version files gcd now).jobs jobID
        = some j' ∧
      (j'.status = "error" ↔ hashedOk files gcd = 0) ∧
      (j'.status = "error" ∨ j'.status = "success") ∧
      (∀ p, gcd = Except.ok p →
        j'.files = files.map mkFileResult ∧ j'.fileCount = files.length) ∧
      (∀ f ∈ files, f.2 ≠ FileOutcome.ok →
        (mkFileResult f).status = "error" ∧ (mkFileResult f).error ≠ "") ∧
      (∀ f ∈ files, f.2 = FileOutcome.ok →
        (mkFileResult f).status = "success") := by
  have hfile1 : ∀ f ∈ files, f.2 ≠ FileOutcome.ok →
      (mkFileResult f).status = "error" ∧ (mkFileResult f).error ≠ "" := by
    rintro ⟨rel, out⟩ _ hne
    cases out with
    | copyFail e => exact ⟨rfl, copy_msg_ne_empty e⟩
    | hashFail e => exact ⟨rfl, hash_msg_ne_empty e⟩
    | ok => exact absurd rfl hne
  have hfile2 : ∀ f ∈ files, f.2 = FileOutcome.ok →
      (mkFileResult f).status = "success" := by
    rintro ⟨rel, out⟩ _ heq
    cases out with
    | copyFail e => exact absurd heq (by simp)
    | hashFail e => exact absurd heq (by simp)
    | ok => rfl
  have h1 := updateWithOperation_lookup s jobID "running" "Getting GCD hashtab"
    none "preparing" now j hj
  rcases gcd with e | gpath
  · have h2 := update_lookup
      (s.updateWithOperation jobID "running" "Getting GCD hashtab" none
        "preparing" now) jobID "error"
      ("Version " ++ version ++ " not available: " ++ e) none now _ h1
    refine ⟨_, h2, ?_, ?_, ?_, hfile1, hfile2⟩
    · rw [updateFun_status]
      simp [hashedOk]
    · rw [updateFun_status]
      exact Or.inl rfl
    · intro p hco
      exact absurd hco (by simp)
  · have h2 := updateWithOperation_lookup
      (s.updateWithOperation jobID "running" "Getting GCD hashtab" none
        "preparing" now) jobID "running" "Hashing files" none "hashing" now _ h1
    rcases hloop : hashLoop jobID files.length
      ((s.updateWithOperation jobID "running" "Getting GCD hashtab" none
          "preparing" now).updateWithOperation jobID "running" "Hashing files"
        none "hashing" now) files 0 [] 0 with ⟨s3, results, sc⟩
    have hres := hashLoop_results jobID files.length files
      ((s.updateWithOperation jobID "running" "Getting GCD hashtab" none
          "preparing" now).updateWithOperation jobID "running" "Hashing files"
        none "hashing" now) 0 [] 0
    rw [hloop] at hres
    simp only at hres
    obtain ⟨j3, h3, hst3, hfl3, hfc3⟩ := hashLoop_store_lookup jobID files.length
      files
      ((s.updateWithOperation jobID "running" "Getting GCD hashtab" none
          "preparing" now).updateWithOperation jobID "running" "Hashing files"
        none "hashing" now) 0 [] 0 _ h2
    rw [hloop] at h3
    simp only at h3
    have h4 := setFiles_lookup s3 jobID results j3 h3
    simp only [processHashJob, hloop]
    by_cases hsc : sc = 0
    · have h5 := update_lookup (s3.setFiles jobID results) jobID "error"
        "All files failed to hash" none now _ h4
      rw [if_pos hsc]
      refine ⟨_, h5, ?_, ?_, ?_, hfile1, hfile2⟩
      · rw [updateFun_status]
        simp only [hashedOk]
        constructor
        · intro _
          have hr := hres.2
          simp at hr
          omega
        · intro _
          trivial
      · rw [updateFun_status]
        exact Or.inl rfl
      · intro p _
        rw [updateFun_files, updateFun_fileCount]
        constructor
        · show (setFilesFun results j3).files = files.map mkFileResult
          rw [show (setFilesFun results j3).files = results from rfl]
          simpa using hres.1
        · show (setFilesFun results j3).fileCount = files.length
          rw [show (setFilesFun results j3).fileCount = results.length from rfl]
          have hr := hres.1
          simp at hr
          rw [hr]
          simp
    · have h5 := update_lookup (s3.setFiles jobID results) jobID "success"
        ("Hashed " ++ toString sc ++ " file(s)") none now _ h4
      rw [if_neg hsc]
      refine ⟨_, h5, ?_, ?_, ?_, hfile1, hfile2⟩
      · rw [updateFun_status]
        simp only [hashedOk]
        constructor
        · intro hco
          exact absurd hco (by decide)
        · intro hcnt
          exfalso
          apply hsc
          have hr := hres.2
          simp at hr
          omega
      · rw [updateFun_status]
        exact Or.inr rfl
      · intro p _
        rw [updateFun_files, updateFun_fileCount]
        constructor
        · show (setFilesFun results j3).files = files.map mkFileResult
          rw [show (setFilesFun results j3).files = results from rfl]
          simpa using hres.1
        · show (setFilesFun results j3).fileCount = files.length
          rw [show (setFilesFun results j3).fileCount = results.length from rfl]
          have hr := hres.1
          simp at hr
          rw [hr]
          simp

/-- Witness for C5: the two-file batch of the specification example, in
which the engine fails on the second file, ends with status success,
fileCount 2, one success result and one error result with a non-empty
message. -/
theorem c5_processHashJob_witness :
    ∃ j', alookup (processHashJob storeA "a" "1.0"
        [("a.qmd", FileOutcome.ok), ("b.qmd", FileOutcome.hashFail "boom")]
        (Except.ok "g/1.0.gcd") 9).jobs "a" = some j' ∧
      j'.status = "success" ∧ j'.fileCount = 2 ∧
      j'.files = [⟨"a.qmd", "a.qmd", "success", ""⟩,
        ⟨"b.qmd", "b.qmd", "error", "Hashing failed: boom"⟩] := by
  obtain ⟨j', hlk, hiff, hor, hok, _, _⟩ := c5_processHashJob storeA "a" "1.0"
    [("a.qmd", FileOutcome.ok), ("b.qmd", FileOutcome.hashFail "boom")]
    (Except.ok "g/1.0.gcd") 9 jobA (by decide)
  have hcnt : hashedOk
      [("a.qmd", FileOutcome.ok), ("b.qmd", FileOutcome.hashFail "boom")]
      (Except.ok "g/1.0.gcd") = 1 := by decide
  have hstatus : j'.status = "success" := by
    rcases hor with herr | hsucc
    · rw [hiff, hcnt] at herr
      exact absurd herr (by decide)
    · exact hsucc
  obtain ⟨hfiles, hfc⟩ := hok "g/1.0.gcd" rfl
  refine ⟨j', hlk, hstatus, by simpa using hfc, ?_⟩
  rw [hfiles]
  rfl

theorem applyOp_watchers_bcast (s : Store) (op : Op) (j : Job)
    (hj : alookup s.jobs op.jobId = some j) (hb : op.broadcasts = true) :
    agetD (applyOp s op).watchers op.jobId [] =
      (agetD s.watchers op.jobId []).map (trySend (copyJob (opFun op j))) := by
  unfold applyOp
  rw [hb]
  exact mutate_watchers_bcast s op.jobId (opFun op) j hj

theorem expectedDeliveries_length (id : String) :
    ∀ (ops : List Op) (s : Store),
      (∀ op ∈ ops, Op.jobId op = id) →
      (alookup s.jobs id).isSome = true →
      (expectedDeliveries s ops).length = (ops.filter Op.broadcasts).length := by
  intro ops
  induction ops with
  | nil =>
      intro s _ _
      rfl
  | cons op rest ih =>
      intro s hops hjs
      have hopid := hops op (List.mem_cons_self _ _)
      obtain ⟨j, hj⟩ := Option.isSome_iff_exists.mp hjs
      have hjlk : alookup (applyOp s op).jobs id = some (opFun op j) := by
        rw [applyOp_jobs_lookup, hopid, if_pos rfl, hj]
        rfl
      have hjs' : (alookup (applyOp s op).jobs id).isSome = true := by
        rw [hjlk]
        rfl
      have hrest := ih (applyOp s op)
        (fun o ho => hops o (List.mem_cons_of_mem _ ho)) hjs'
      rcases hb : op.broadcasts
      · simp [expectedDeliveries, hb, hrest, List.filter_cons, hopid]
      · have hjlk' : alookup (applyOp s op).jobs op.jobId = some (opFun op j) := by
          rw [hopid]
          exact hjlk
        simp [expectedDeliveries, hb, hrest, List.filter_cons, hjlk']

theorem subscriber_buffer_evolution (id : String) :
    ∀ (ops : List Op) (s : Store) (pre : List Chan) (buf : Chan),
      agetD s.watchers id [] = pre ++ [buf] →
      (∀ op ∈ ops, Op.jobId op = id) →
      (alookup s.jobs id).isSome = true →
      buf.length + (ops.filter Op.broadcasts).length ≤ 10 →
      ∃ pre', agetD (applyOps s ops).watchers id [] =
        pre' ++ [buf ++ expectedDeliveries s ops] := by
  intro ops
  induction ops with
  | nil =>
      intro s pre buf hw _ _ _
      refine ⟨pre, ?_⟩
      simpa [applyOps, expectedDeliveries] using hw
  | cons op rest ih =>
      intro s pre buf hw hops hjs hcap
      have hopid : op.jobId = id := hops op (List.mem_cons_self _ _)
      obtain ⟨j, hj⟩ := Option.isSome_iff_exists.mp hjs
      have hjlk : alookup (applyOp s op).jobs id = some (opFun op j) := by
        rw [applyOp_jobs_lookup, hopid, if_pos rfl, hj]
        rfl
      have hjs' : (alookup (applyOp s op).jobs id).isSome = true := by
        rw [hjlk]
        rfl
      have hops' : ∀ o ∈ rest, Op.jobId o = id :=
        fun o ho => hops o (List.mem_cons_of_mem _ ho)
      have hstep : applyOps s (op :: rest) = applyOps (applyOp s op) rest := rfl
      rcases hb : op.broadcasts
      · have hw' : agetD (applyOp s op).watchers id [] = pre ++ [buf] := by
          unfold applyOp
          rw [hb, mutate_watchers_nobcast]
          exact hw
        have hcap' : buf.length + (rest.filter Op.broadcasts).length ≤ 10 := by
          have hfe : (List.filter Op.broadcasts (op :: rest)).length =
              (rest.filter Op.broadcasts).length := by
            simp [List.filter_cons, hb]
          omega
        obtain ⟨pre', hfin⟩ := ih (applyOp s op) pre buf hw' hops' hjs' hcap'
        refine ⟨pre', ?_⟩
        rw [hstep, hfin]
        have hexp : expectedDeliveries s (op :: rest) =
            expectedDeliveries (applyOp s op) rest := by
          simp [expectedDeliveries, hb]
        rw [hexp]
      · have hwb : agetD (applyOp s op).watchers id [] =
            (agetD s.watchers id []).map (trySend (copyJob (opFun op j))) := by
          have h := applyOp_watchers_bcast s op j (by rw [hopid]; exact hj) hb
          rw [hopid] at h
          exact h
        have hlen : buf.length < 10 := by
          have hfe : (List.filter Op.broadcasts (op :: rest)).length =
              (rest.filter Op.broadcasts).length + 1 := by
            simp [List.filter_cons, hb]
          omega
        have hw' : agetD (applyOp s op).watchers id [] =
            pre.map (trySend (copyJob (opFun op j))) ++
              [buf ++ [copyJob (opFun op j)]] := by
          rw [hwb, hw, List.map_append]
          simp [trySend, hlen]
        have hcap' : (buf ++ [copyJob (opFun op j)]).length +
            (rest.filter Op.broadcasts).length ≤ 10 := by
          have hfe : (List.filter Op.broadcasts (op :: rest)).length =
              (rest.filter Op.broadcasts).length + 1 := by
            simp [List.filter_cons, hb]
          simp only [List.length_append, List.length_cons, List.length_nil]
          omega
        obtain ⟨pre', hfin⟩ := ih (applyOp s op)
          (pre.map (trySend (copyJob (opFun op j))))
          (buf ++ [copyJob (opFun op j)]) hw' hops' hjs' hcap'
        refine ⟨pre', ?_⟩
        rw [hstep, hfin]
        have hjlk' : alookup (applyOp s op).jobs op.jobId = some (opFun op j) := by
          rw [hopid]
          exact hjlk
        have hexp : expectedDeliveries s (op :: rest) =
            copyJob (opFun op j) :: expectedDeliveries (applyOp s op) rest := by
          simp [expectedDeliveries, hb, hjlk']
        rw [hexp]
        simp [List.append_assoc]

/-- C6: a subscriber joining after the job's creation receives one
immediate snapshot equal to the job's current state at subscribe time,
then exactly one snapshot per subsequent broadcasting mutation of that
job, in mutation order, provided its buffer never fills: the channel
registered by Subscribe (last in the job's watcher list) holds exactly
the initial snapshot followed by the snapshot of every broadcasting
mutation, and that delivery sequence has one entry per broadcasting
mutation. -/
theorem c6_subscriber_deliveries (s : Store) (id : String) (j : Job)
    (ops : List Op) (hj : alookup s.jobs id = some j)
    (hops : ∀ op ∈ ops, Op.jobId op = id)
    (hcap : 1 + (ops.filter Op.broadcasts).length ≤ 10) :
    (∃ pre, agetD (applyOps (s.subscribe id) ops).watchers id [] =
        pre ++ [copyJob j :: expectedDeliveries (s.subscribe id) ops]) ∧
    (expectedDeliveries (s.subscribe id) ops).length =
      (ops.filter Op.broadcasts).length := by
  have hjobs : (s.subscribe id).jobs = s.jobs := rfl
  have hw : agetD (s.subscribe id).watchers id [] =
      agetD s.watchers id [] ++ [[copyJob j]] := by
    unfold Store.subscribe
    simp [agetD, alookup_aset_self, hj]
  have hjs : (alookup (s.subscribe id).jobs id).isSome = true := by
    rw [hjobs, hj]
    rfl
  constructor
  · obtain ⟨pre', hfin⟩ := subscriber_buffer_evolution id ops (s.subscribe id)
      (agetD s.watchers id []) [copyJob j] hw hops hjs (by simpa using hcap)
    refine ⟨pre', ?_⟩
    rw [hfin]
    rfl
  · exact expectedDeliveries_length id ops (s.subscribe id) hops hjs

/-- Witness for C6 on a concrete three-mutation trace (two of which
broadcast). -/
theorem c6_subscriber_deliveries_witness :
    (∃ pre, agetD (applyOps (storeA.subscribe "a")
        [Op.updateProgress "a" 50, Op.setFiles "a" [],
         Op.update "a" "success" "m" none 5]).watchers "a" [] =
      pre ++ [copyJob jobA :: expectedDeliveries (storeA.subscribe "a")
        [Op.updateProgress "a" 50, Op.setFiles "a" [],
         Op.update "a" "success" "m" none 5]]) ∧
    (expectedDeliveries (storeA.subscribe "a")
        [Op.updateProgress "a" 50, Op.setFiles "a" [],
         Op.update "a" "success" "m" none 5]).length = 2 :=
  c6_subscriber_deliveries storeA "a" jobA
    [Op.updateProgress "a" 50, Op.setFiles "a" [],
     Op.update "a" "success" "m" none 5]
    (by decide) (by decide) (by decide)

theorem staleCheck_eq_true_iff (g : GState) (h : HState) (version : String)
    (stat : String → Option Nat) :
    staleCheck g h version stat = true ↔
      alookup g.gcdHashtabs version = none ∨
      ∃ gcd, alookup g.gcdHashtabs version = some gcd ∧
        ((GetHashtabsForVersion h version).length ≠ gcd.deviceCount ∨
         ∃ ht ∈ GetHashtabsForVersion h version, ∃ m, stat ht.path = some m ∧
           alookup (agetD g.sourceModTimes version []) ht.path ≠ some m) := by
  rcases hg : alookup g.gcdHashtabs version with _ | gcd
  · simp only [staleCheck, hg]
    simp
  · simp only [staleCheck, hg]
    by_cases hlen : (GetHashtabsForVersion h version).length ≠ gcd.deviceCount
    · simp only [if_pos hlen]
      constructor
      · intro _
        exact Or.inr ⟨gcd, rfl, Or.inl hlen⟩
      · intro _
        trivial
    · simp only [if_neg hlen]
      rw [List.any_eq_true]
      constructor
      · rintro ⟨ht, hmem, hpred⟩
        rcases hstat : stat ht.path with _ | m
        · rw [hstat] at hpred
          exact absurd hpred (by simp)
        · rw [hstat] at hpred
          simp only [Bool.not_eq_eq_eq_not, Bool.not_true,
            decide_eq_false_iff_not] at hpred
          exact Or.inr ⟨gcd, rfl, Or.inr ⟨ht, hmem, m, hstat, hpred⟩⟩
      · rintro (hnone | ⟨gcd2, hgcd2, hca | ⟨ht, hmem, m, hstat, hne⟩⟩)
        · exact absurd hnone (by simp)
        · injection hgcd2 with he
          subst he
          exact absurd hca hlen
        · refine ⟨ht, hmem, ?_⟩
          rw [hstat]
          simp [hne]

theorem getGCD_regenerated_eq (g : GState) (h : HState) (version : String)
    (now : Nat) (w1 w2 : WalkResult) (engineOk : Bool)
    (stat : String → Option Nat) :
    (GetGCDHashtab g h version now w1 w2 engineOk stat).regenerated =
      ((CheckAndReload h now w1 w2).reloaded ||
        staleCheck g (CheckAndReload h now w1 w2).state version stat) := by
  simp only [GetGCDHashtab]
  rcases hc : ((CheckAndReload h now w1 w2).reloaded ||
      staleCheck g (CheckAndReload h now w1 w2).state version stat)
  · simp only [Bool.false_eq_true, if_false]
    rcases alookup g.gcdHashtabs version with _ | gcd <;> rfl
  · simp only [if_true]
    rcases (generateGCD g (CheckAndReload h now w1 w2).state version engineOk
        stat now).res with e | u
    · rfl
    · rcases alookup (generateGCD g (CheckAndReload h now w1 w2).state version
          engineOk stat now).g.gcdHashtabs version with _ | gcd <;> rfl

theorem generateGCD_ok_entry (g : GState) (h : HState) (version : String)
    (engineOk : Bool) (stat : String → Option Nat) (now : Nat)
    (hok : (generateGCD g h version engineOk stat now).res = Except.ok ()) :
    ∃ e, alookup (generateGCD g h version engineOk stat now).g.gcdHashtabs
        version = some e ∧ e.sourceModTime = now := by
  rcases hl : GetHashtabsForVersion h version with _ | ⟨a, _ | ⟨b, rest⟩⟩
  · rw [show (generateGCD g h version engineOk stat now).res =
        Except.error ("no hashtabs found for version " ++ version) from
        by simp [generateGCD, hl]] at hok
    exact absurd hok (by simp)
  · refine ⟨⟨version, a.path, now, 1⟩, ?_, rfl⟩
    simp [generateGCD, hl, alookup_aset_self]
  · cases engineOk
    · rw [show (generateGCD g h version false stat now).res =
          Except.error "qmldiff gcd-hashtab failed" from
          by simp [generateGCD, hl]] at hok
      exact absurd hok (by simp)
    · refine ⟨⟨version, g.gcdDir ++ "/" ++ version ++ ".gcd", now,
        (a :: b :: rest).length⟩, ?_, rfl⟩
      simp [generateGCD, hl, alookup_aset_self]

/-- C3: GetGCDHashtab regenerates exactly when stale: a reported reload
forces regeneration unconditionally; otherwise a missing cache entry, a
device-count mismatch with the registry's current set, or a current
source path whose readable mtime differs from the snapshot forces
regeneration (installing a cache entry whose snapshot instant is the
call time when it succeeds); in all other cases the cached path is
returned with the cache state unchanged.  In particular a source path
with a changed mtime or a changed device count regenerates. -/
theorem c3_regeneration_exactly_when_stale (g : GState) (h : HState)
    (version : String) (now : Nat) (w1 w2 : WalkResult) (engineOk : Bool)
    (stat : String → Option Nat) :
    ((GetGCDHashtab g h version now w1 w2 engineOk stat).regenerated = true ↔
      ((CheckAndReload h now w1 w2).reloaded = true ∨
        alookup g.gcdHashtabs version = none ∨
        ∃ gcd, alookup g.gcdHashtabs version = some gcd ∧
          ((GetHashtabsForVersion (CheckAndReload h now w1 w2).state
              version).length ≠ gcd.deviceCount ∨
            ∃ ht ∈ GetHashtabsForVersion (CheckAndReload h now w1 w2).state
                version, ∃ m, stat ht.path = some m ∧
              alookup (agetD g.sourceModTimes version []) ht.path ≠ some m))) ∧
    ((GetGCDHashtab g h version now w1 w2 engineOk stat).regenerated = false →
      (GetGCDHashtab g h version now w1 w2 engineOk stat).g = g ∧
      ∃ gcd, alookup g.gcdHashtabs version = some gcd ∧
        (GetGCDHashtab g h version now w1 w2 engineOk stat).res =
          Except.ok gcd.path) ∧
    ((GetGCDHashtab g h version now w1 w2 engineOk stat).regenerated = true →
      ∀ p, (GetGCDHashtab g h version now w1 w2 engineOk stat).res =
          Except.ok p →
      ∃ e, alookup (GetGCDHashtab g h version now w1 w2 engineOk
          stat).g.gcdHashtabs version = some e ∧ e.path = p ∧
        e.sourceModTime = now) ∧
    (∀ gcd, alookup g.gcdHashtabs version = some gcd →
      ∀ ht ∈ GetHashtabsForVersion (CheckAndReload h now w1 w2).state version,
      ∀ m, stat ht.path = some m →
      alookup (agetD g.sourceModTimes version []) ht.path ≠ some m →
      (GetGCDHashtab g h version now w1 w2 engineOk stat).regenerated = true) ∧
    (∀ gcd, alookup g.gcdHashtabs version = some gcd →
      (GetHashtabsForVersion (CheckAndReload h now w1 w2).state version).length
        ≠ gcd.deviceCount →
      (GetGCDHashtab g h version now w1 w2 engineOk stat).regenerated = true) := by
  have hiff : (GetGCDHashtab g h version now w1 w2 engineOk stat).regenerated
      = true ↔
      ((CheckAndReload h now w1 w2).reloaded = true ∨
        alookup g.gcdHashtabs version = none ∨
        ∃ gcd, alookup g.gcdHashtabs version = some gcd ∧
          ((GetHashtabsForVersion (CheckAndReload h now w1 w2).state
              version).length ≠ gcd.deviceCount ∨
            ∃ ht ∈ GetHashtabsForVersion (CheckAndReload h now w1 w2).state
                version, ∃ m, stat ht.path = some m ∧
              alookup (agetD g.sourceModTimes version []) ht.path ≠ some m)) := by
    rw [getGCD_regenerated_eq, Bool.or_eq_true, staleCheck_eq_true_iff]
  refine ⟨hiff, ?_, ?_, ?_, ?_⟩
  · intro hr
    have hco : ((CheckAndReload h now w1 w2).reloaded ||
        staleCheck g (CheckAndReload h now w1 w2).state version stat) = false := by
      rw [← getGCD_regenerated_eq]
      exact hr
    rcases hlook : alookup g.gcdHashtabs version with _ | gcd
    · exfalso
      have : staleCheck g (CheckAndReload h now w1 w2).state version stat
          = true := by
        unfold staleCheck
        rw [hlook]
      rw [this] at hco
      simp at hco
    · refine ⟨?_, gcd, rfl, ?_⟩
      · simp only [GetGCDHashtab, hco, Bool.false_eq_true, if_false, hlook]
      · simp only [GetGCDHashtab, hco, Bool.false_eq_true, if_false, hlook]
  · intro hr p hres
    have hco : ((CheckAndReload h now w1 w2).reloaded ||
        staleCheck g (CheckAndReload h now w1 w2).state version stat) = true := by
      rw [← getGCD_regenerated_eq]
      exact hr
    rcases hgr : (generateGCD g (CheckAndReload h now w1 w2).state version
        engineOk stat now).res with e | u
    · exfalso
      rw [show (GetGCDHashtab g h version now w1 w2 engineOk stat).res =
          Except.error e from by simp only [GetGCDHashtab, hco, if_true, hgr]]
        at hres
      exact absurd hres (by simp)
    · obtain ⟨entry, hentry, hmt⟩ := generateGCD_ok_entry g
        (CheckAndReload h now w1 w2).state version engineOk stat now
        (by rw [hgr])
      have hres2 : (GetGCDHashtab g h version now w1 w2 engineOk stat).res =
          Except.ok entry.path := by
        simp only [GetGCDHashtab, hco, if_true, hgr, hentry]
      have hg2 : (GetGCDHashtab g h version now w1 w2 engineOk stat).g =
          (generateGCD g (CheckAndReload h now w1 w2).state version engineOk
            stat now).g := by
        simp only [GetGCDHashtab, hco, if_true, hgr, hentry]
      rw [hres2] at hres
      injection hres with hpe
      refine ⟨entry, ?_, hpe, hmt⟩
      rw [hg2]
      exact hentry
  · intro gcd hgcd ht hmem m hstat hne
    exact hiff.mpr (Or.inr (Or.inr ⟨gcd, hgcd, Or.inr ⟨ht, hmem, m, hstat, hne⟩⟩))
  · intro gcd hgcd hlen
    exact hiff.mpr (Or.inr (Or.inr ⟨gcd, hgcd, Or.inl hlen⟩))

/-- Witness for C3: with an empty cache the first request regenerates. -/
theorem c3_regeneration_witness :
    (GetGCDHashtab gEmpty hReg "1.0" 103 ⟨wsClean, false⟩ ⟨wsClean, false⟩ true
      statClean).regenerated = true :=
  (c3_regeneration_exactly_when_stale gEmpty hReg "1.0" 103 ⟨wsClean, false⟩
    ⟨wsClean, false⟩ true statClean).1.mpr (Or.inr (Or.inl (by decide)))

theorem checkAndReload_clean (s : HState) (now : Nat) (ws : List FileEnt)
    (w2 : WalkResult) (hclean : detectChange s.modTimes ws = false) :
    (CheckAndReload s now ⟨ws, false⟩ w2).reloaded = false ∧
    (CheckAndReload s now ⟨ws, false⟩ w2).state.byVersion = s.byVersion ∧
    (CheckAndReload s now ⟨ws, false⟩ w2).state.modTimes = s.modTimes := by
  unfold CheckAndReload
  by_cases hrate : now - s.lastReloadCheck < 5
  · simp [hrate]
  · simp [hrate, hclean]

theorem staleCheck_congr (g : GState) (h1 h2 : HState) (version : String)
    (stat : String → Option Nat) (hby : h1.byVersion = h2.byVersion) :
    staleCheck g h1 version stat = staleCheck g h2 version stat := by
  unfold staleCheck GetHashtabsForVersion
  rw [hby]

theorem getHashtabs_congr (h1 h2 : HState) (version : String)
    (hby : h1.byVersion = h2.byVersion) :
    GetHashtabsForVersion h1 version = GetHashtabsForVersion h2 version := by
  unfold GetHashtabsForVersion
  rw [hby]

theorem alookup_filterMap_stat (stat : String → Option Nat) :
    ∀ (hts : List Hashtab) (ht : Hashtab) (m : Nat), ht ∈ hts →
      stat ht.path = some m →
      alookup (hts.filterMap
          (fun x => (stat x.path).map (fun mm => (x.path, mm)))) ht.path
        = some m := by
  intro hts
  induction hts with
  | nil =>
      intro ht m hmem _
      cases hmem
  | cons a rest ih =>
      intro ht m hmem hstat
      rcases List.mem_cons.mp hmem with he | hmem2
      · subst he
        rw [List.filterMap_cons, hstat]
        show alookup ((ht.path, m) :: rest.filterMap
          (fun x => (stat x.path).map (fun mm => (x.path, mm)))) ht.path = some m
        simp [alookup]
      · rw [List.filterMap_cons]
        rcases hsa : stat a.path with _ | ma
        · exact ih ht m hmem2 hstat
        · by_cases hpa : a.path = ht.path
          · rw [hpa] at hsa
            rw [hstat] at hsa
            injection hsa with hma
            subst hma
            show alookup ((a.path, m) :: rest.filterMap
              (fun x => (stat x.path).map (fun mm => (x.path, mm)))) ht.path
              = some m
            simp [alookup, hpa]
          · show alookup ((a.path, ma) :: rest.filterMap
              (fun x => (stat x.path).map (fun mm => (x.path, mm)))) ht.path
              = some m
            rw [show alookup ((a.path, ma) :: rest.filterMap
              (fun x => (stat x.path).map (fun mm => (x.path, mm)))) ht.path
              = alookup (rest.filterMap
                (fun x => (stat x.path).map (fun mm => (x.path, mm)))) ht.path
              from by simp [alookup, hpa]]
            exact ih ht m hmem2 hstat

theorem getGCD_no_engine_call (g1 : GState) (hs : HState) (version : String)
    (now2 : Nat) (ws : List FileEnt) (w2b : WalkResult) (engineOk : Bool)
    (stat : String → Option Nat) (p : String)
    (hclean : detectChange hs.modTimes ws = false)
    (hlookup : ∃ entry, alookup g1.gcdHashtabs version = some entry ∧
      entry.path = p)
    (hcase : staleCheck g1 (CheckAndReload hs now2 ⟨ws, false⟩ w2b).state
        version stat = false ∨
      ∃ ht, GetHashtabsForVersion
          (CheckAndReload hs now2 ⟨ws, false⟩ w2b).state version = [ht] ∧
        ht.path = p) :
    (GetGCDHashtab g1 hs version now2 ⟨ws, false⟩ w2b engineOk stat).engineCalls
      = 0 ∧
    (GetGCDHashtab g1 hs version now2 ⟨ws, false⟩ w2b engineOk stat).res =
      Except.ok p := by
  obtain ⟨entry, hlook, hpath⟩ := hlookup
  have hcr := checkAndReload_clean hs now2 ws w2b hclean
  rcases hstale : staleCheck g1 (CheckAndReload hs now2 ⟨ws, false⟩ w2b).state
      version stat
  · subst hpath
    constructor <;> simp [GetGCDHashtab, hcr.1, hstale, hlook]
  · rcases hcase with hfalse | ⟨ht, hhts, hpth⟩
    · rw [hstale] at hfalse
      cases hfalse
    · subst hpth
      constructor <;>
        simp [GetGCDHashtab, hcr.1, hstale, generateGCD, hhts,
          alookup_aset_self]

/-- Counterexample to C2 as stated: no source artifact changes between
the two calls (identical walk observations and identical stat results),
yet two external merges happen.  The registry's recorded mtimes are
stale from before the first call (p1 was touched); the first call falls
inside the 5-second rate-limit window, so it regenerates against the
stale registry (one merge); the second call rescans, detects the old
change, reloads and regenerates unconditionally (a second merge). -/
theorem c2_counterexample :
    (GetGCDHashtab gEmpty hReg "1.0" 103 ⟨wsTouched, false⟩ ⟨wsTouched, false⟩
        true statTouched).res = Except.ok "g/1.0.gcd" ∧
    (GetGCDHashtab gEmpty hReg "1.0" 103 ⟨wsTouched, false⟩ ⟨wsTouched, false⟩
        true statTouched).engineCalls = 1 ∧
    (GetGCDHashtab
        (GetGCDHashtab gEmpty hReg "1.0" 103 ⟨wsTouched, false⟩
          ⟨wsTouched, false⟩ true statTouched).g
        (GetGCDHashtab gEmpty hReg "1.0" 103 ⟨wsTouched, false⟩
          ⟨wsTouched, false⟩ true statTouched).h
        "1.0" 110 ⟨wsTouched, false⟩ ⟨wsTouched, false⟩ true
        statTouched).engineCalls = 1 :=
  ⟨by rfl, by decide, by decide⟩

/-- C2 amended: when the registry's recorded mtime map agrees with the
directory contents observed by the walks (so the first call's change
check, rate-limited or not, reports no change), two GetGCDHashtab calls
for the same version with no source-artifact changes between them
perform at most one external merge in total, and when the first call
succeeds the second returns the identical cached path. -/
theorem c2_amended (g : GState) (h : HState) (version : String)
    (now1 now2 : Nat) (w2a w2b : WalkResult) (ws : List FileEnt)
    (engineOk : Bool) (stat : String → Option Nat) (p : String)
    (hclean : detectChange h.modTimes ws = false)
    (hres1 : (GetGCDHashtab g h version now1 ⟨ws, false⟩ w2a engineOk stat).res
      = Except.ok p) :
    (GetGCDHashtab g h version now1 ⟨ws, false⟩ w2a engineOk stat).engineCalls +
      (GetGCDHashtab
        (GetGCDHashtab g h version now1 ⟨ws, false⟩ w2a engineOk stat).g
        (GetGCDHashtab g h version now1 ⟨ws, false⟩ w2a engineOk stat).h
        version now2 ⟨ws, false⟩ w2b engineOk stat).engineCalls ≤ 1 ∧
    (GetGCDHashtab
        (GetGCDHashtab g h version now1 ⟨ws, false⟩ w2a engineOk stat).g
        (GetGCDHashtab g h version now1 ⟨ws, false⟩ w2a engineOk stat).h
        version now2 ⟨ws, false⟩ w2b engineOk stat).res = Except.ok p := by
  have hcr1 := checkAndReload_clean h now1 ws w2a hclean
  have hclean1 : detectChange
      (CheckAndReload h now1 ⟨ws, false⟩ w2a).state.modTimes ws = false := by
    rw [hcr1.2.2]
    exact hclean
  have hcr2 := checkAndReload_clean
    (CheckAndReload h now1 ⟨ws, false⟩ w2a).state now2 ws w2b hclean1
  rcases hstale1 : staleCheck g (CheckAndReload h now1 ⟨ws, false⟩ w2a).state
      version stat
  · rcases hlook : alookup g.gcdHashtabs version with _ | gcd
    · exfalso
      have hT : staleCheck g (CheckAndReload h now1 ⟨ws, false⟩ w2a).state
          version stat = true := by
        unfold staleCheck
        rw [hlook]
      rw [hT] at hstale1
      cases hstale1
    · have hc1 : (GetGCDHashtab g h version now1 ⟨ws, false⟩ w2a engineOk
          stat).engineCalls = 0 := by
        simp [GetGCDHashtab, hcr1.1, hstale1, hlook]
      have hr1 : (GetGCDHashtab g h version now1 ⟨ws, false⟩ w2a engineOk
          stat).res = Except.ok gcd.path := by
        simp [GetGCDHashtab, hcr1.1, hstale1, hlook]
      have hg1 : (GetGCDHashtab g h version now1 ⟨ws, false⟩ w2a engineOk
          stat).g = g := by
        simp [GetGCDHashtab, hcr1.1, hstale1, hlook]
      have hh1 : (GetGCDHashtab g h version now1 ⟨ws, false⟩ w2a engineOk
          stat).h = (CheckAndReload h now1 ⟨ws, false⟩ w2a).state := by
        simp [GetGCDHashtab, hcr1.1, hstale1, hlook]
      rw [hr1] at hres1
      injection hres1 with hpe
      have hstale2 : staleCheck g
          (CheckAndReload (CheckAndReload h now1 ⟨ws, false⟩ w2a).state now2
            ⟨ws, false⟩ w2b).state version stat = false := by
        rw [staleCheck_congr g _ (CheckAndReload h now1 ⟨ws, false⟩ w2a).state
          version stat (by rw [hcr2.2.1])]
        exact hstale1
      have hsecond := getGCD_no_engine_call g
        (CheckAndReload h now1 ⟨ws, false⟩ w2a).state version now2 ws w2b
        engineOk stat p hclean1 ⟨gcd, hlook, hpe⟩ (Or.inl hstale2)
      rw [hc1, hg1, hh1]
      refine ⟨?_, hsecond.2⟩
      rw [hsecond.1]
      omega
  · rcases hhts : GetHashtabsForVersion
        (CheckAndReload h now1 ⟨ws, false⟩ w2a).state version with
      _ | ⟨a, _ | ⟨b, rest⟩⟩
    · exfalso
      have hE : (GetGCDHashtab g h version now1 ⟨ws, false⟩ w2a engineOk
          stat).res = Except.error ("no hashtabs found for version " ++ version)
          := by
        simp [GetGCDHashtab, hcr1.1, hstale1, generateGCD, hhts]
      rw [hE] at hres1
      exact absurd hres1 (by simp)
    · have hc1 : (GetGCDHashtab g h version now1 ⟨ws, false⟩ w2a engineOk
          stat).engineCalls = 0 := by
        simp [GetGCDHashtab, hcr1.1, hstale1, generateGCD, hhts,
          alookup_aset_self]
      have hr1 : (GetGCDHashtab g h version now1 ⟨ws, false⟩ w2a engineOk
          stat).res = Except.ok a.path := by
        simp [GetGCDHashtab, hcr1.1, hstale1, generateGCD, hhts,
          alookup_aset_self]
      have hg1 : (GetGCDHashtab g h version now1 ⟨ws, false⟩ w2a engineOk
          stat).g = { g with
            gcdHashtabs := aset g.gcdHashtabs version
              ⟨version, a.path, now1, 1⟩,
            sourceModTimes := aset g.sourceModTimes version
              [(a.path, now1)] } := by
        simp [GetGCDHashtab, hcr1.1, hstale1, generateGCD, hhts,
          alookup_aset_self]
      have hh1 : (GetGCDHashtab g h version now1 ⟨ws, false⟩ w2a engineOk
          stat).h = (CheckAndReload h now1 ⟨ws, false⟩ w2a).state := by
        simp [GetGCDHashtab, hcr1.1, hstale1, generateGCD, hhts,
          alookup_aset_self]
      rw [hr1] at hres1
      injection hres1 with hpe
      have hhts2 : GetHashtabsForVersion
          (CheckAndReload (CheckAndReload h now1 ⟨ws, false⟩ w2a).state now2
            ⟨ws, false⟩ w2b).state version = [a] := by
        rw [getHashtabs_congr _ (CheckAndReload h now1 ⟨ws, false⟩ w2a).state
          version (by rw [hcr2.2.1])]
        exact hhts
      have hsecond := getGCD_no_engine_call
        { g with
          gcdHashtabs := aset g.gcdHashtabs version ⟨version, a.path, now1, 1⟩,
          sourceModTimes := aset g.sourceModTimes version [(a.path, now1)] }
        (CheckAndReload h now1 ⟨ws, false⟩ w2a).state version now2 ws w2b
        engineOk stat p hclean1
        ⟨⟨version, a.path, now1, 1⟩, by simp [alookup_aset_self], hpe⟩
        (Or.inr ⟨a, hhts2, hpe⟩)
      rw [hc1, hg1, hh1]
      refine ⟨?_, hsecond.2⟩
      rw [hsecond.1]
      omega
    · cases engineOk
      · exfalso
        have hE : (GetGCDHashtab g h version now1 ⟨ws, false⟩ w2a false
            stat).res = Except.error "qmldiff gcd-hashtab failed" := by
          simp [GetGCDHashtab, hcr1.1, hstale1, generateGCD, hhts]
        rw [hE] at hres1
        exact absurd hres1 (by simp)
      · have hc1 : (GetGCDHashtab g h version now1 ⟨ws, false⟩ w2a true
            stat).engineCalls = 1 := by
          simp [GetGCDHashtab, hcr1.1, hstale1, generateGCD, hhts,
            alookup_aset_self]
        have hr1 : (GetGCDHashtab g h version now1 ⟨ws, false⟩ w2a true
            stat).res = Except.ok (g.gcdDir ++ "/" ++ version ++ ".gcd") := by
          simp [GetGCDHashtab, hcr1.1, hstale1, generateGCD, hhts,
            alookup_aset_self]
        have hg1 : (GetGCDHashtab g h version now1 ⟨ws, false⟩ w2a true
            stat).g = { g with
              gcdHashtabs := aset g.gcdHashtabs version
                ⟨version, g.gcdDir ++ "/" ++ version ++ ".gcd", now1,
                  (a :: b :: rest).length⟩,
              sourceModTimes := aset g.sourceModTimes version
                ((a :: b :: rest).filterMap
                  (fun x => (stat x.path).map (fun mm => (x.path, mm)))) } := by
          simp [GetGCDHashtab, hcr1.1, hstale1, generateGCD, hhts,
            alookup_aset_self]
        have hh1 : (GetGCDHashtab g h version now1 ⟨ws, false⟩ w2a true
            stat).h = (CheckAndReload h now1 ⟨ws, false⟩ w2a).state := by
          simp [GetGCDHashtab, hcr1.1, hstale1, generateGCD, hhts,
            alookup_aset_self]
        rw [hr1] at hres1
        injection hres1 with hpe
        have hhts2 : GetHashtabsForVersion
            (CheckAndReload (CheckAndReload h now1 ⟨ws, false⟩ w2a).state now2
              ⟨ws, false⟩ w2b).state version = a :: b :: rest := by
          rw [getHashtabs_congr _ (CheckAndReload h now1 ⟨ws, false⟩ w2a).state
            version (by rw [hcr2.2.1])]
          exact hhts
        have hstale2 : staleCheck
            { g with
              gcdHashtabs := aset g.gcdHashtabs version
                ⟨version, g.gcdDir ++ "/" ++ version ++ ".gcd", now1,
                  (a :: b :: rest).length⟩,
              sourceModTimes := aset g.sourceModTimes version
                ((a :: b :: rest).filterMap
                  (fun x => (stat x.path).map (fun mm => (x.path, mm)))) }
            (CheckAndReload (CheckAndReload h now1 ⟨ws, false⟩ w2a).state now2
              ⟨ws, false⟩ w2b).state version stat = false := by
          simp only [staleCheck, alookup_aset_self, hhts2]
          rw [if_neg (by simp)]
          rw [List.any_eq_false]
          intro x hx
          rcases hsx : stat x.path with _ | m
          · simp [hsx]
          · have hsnap := alookup_filterMap_stat stat (a :: b :: rest) x m hx hsx
            simp [hsx, agetD, alookup_aset_self, hsnap]
        have hsecond := getGCD_no_engine_call
          { g with
            gcdHashtabs := aset g.gcdHashtabs version
              ⟨version, g.gcdDir ++ "/" ++ version ++ ".gcd", now1,
                (a :: b :: rest).length⟩,
            sourceModTimes := aset g.sourceModTimes version
              ((a :: b :: rest).filterMap
                (fun x => (stat x.path).map (fun mm => (x.path, mm)))) }
          (CheckAndReload h now1 ⟨ws, false⟩ w2a).state version now2 ws w2b
          true stat p hclean1
          ⟨⟨version, g.gcdDir ++ "/" ++ version ++ ".gcd", now1,
            (a :: b :: rest).length⟩, by simp [alookup_aset_self], hpe⟩
          (Or.inl hstale2)
        rw [hc1, hg1, hh1]
        refine ⟨?_, hsecond.2⟩
        rw [hsecond.1]

/-- Witness for the amended C2: two clean calls on the two-device
registry perform exactly one merge in total. -/
theorem c2_amended_witness :
    (GetGCDHashtab gEmpty hReg "1.0" 103 ⟨wsClean, false⟩ ⟨wsClean, false⟩ true
        statClean).engineCalls +
      (GetGCDHashtab
        (GetGCDHashtab gEmpty hReg "1.0" 103 ⟨wsClean, false⟩ ⟨wsClean, false⟩
          true statClean).g
        (GetGCDHashtab gEmpty hReg "1.0" 103 ⟨wsClean, false⟩ ⟨wsClean, false⟩
          true statClean).h
        "1.0" 110 ⟨wsClean, false⟩ ⟨wsClean, false⟩ true statClean).engineCalls
      ≤ 1 :=
  (c2_amended gEmpty hReg "1.0" 103 110 ⟨wsClean, false⟩ ⟨wsClean, false⟩
    wsClean true statClean "g/1.0.gcd" (by decide) (by rfl)).1

end RmQmdHasher
